import Mathlib

/-!
# AR-ROOM: placement, gestures, surface tracking and menu selection

A shallow embedding of `src/src/App.js`.  The component `App` is a closure over a
handful of mutable variables; here they are the fields of `State`, and every
callback of the source (`onSelect`, the `click`, `touchstart` and `touchmove`
listeners, `render`, the loader callback, the hit-test promise and the session
`end` listener) is a function on `State`.

JavaScript numbers are kept abstract: the definitions only use the operations
the source uses (`+`, `-`, `*`, `/`, decimal literals, `Math.hypot`,
`Math.atan2`), over any type `α` that provides them, and assume no law about
them, so what is proved of them holds for the double-precision arithmetic the
program runs on.  That arithmetic itself is `Float64` below: the finite doubles
with round-to-nearest, ties-to-even.  The three.js and WebXR calls of the source
are library code: what they compute is a parameter (`Three`, `JSMath`, the
fields of `XRFrame`).
-/

set_option linter.unusedSectionVars false

namespace ARRoom

/-! ## three.js value types -/

/-- The class `THREE.Vector3`. -/
structure Vector3 (α : Type) where
  x : α
  y : α
  z : α
  deriving DecidableEq, Repr

/-- The class `THREE.Quaternion`. -/
structure Quaternion (α : Type) where
  x : α
  y : α
  z : α
  w : α
  deriving DecidableEq, Repr

/-- The class `THREE.Euler` (with the default order, which the source never changes). -/
structure Euler (α : Type) where
  x : α
  y : α
  z : α
  deriving DecidableEq, Repr

/-- The class `THREE.Matrix4`: sixteen numbers, column-major. -/
structure Matrix4 (α : Type) where
  elements : Fin 16 → α

/-- What the three.js routines reached from `App.js` compute.  They are
library code, so they are parameters of the embedding.
* `decompose m` is the triple (position, quaternion, scale) that
  `Matrix4.decompose` writes into its three arguments;
* `eulerFromQuaternion` and `quaternionFromEuler` are the two conversions by
  which an `Object3D` keeps its `rotation` and its `quaternion` in step
  (`Euler.setFromQuaternion`, `Quaternion.setFromEuler`). -/
class Three (α : Type) where
  decompose : Matrix4 α → Vector3 α × Quaternion α × Vector3 α
  eulerFromQuaternion : Quaternion α → Euler α
  quaternionFromEuler : Euler α → Quaternion α

/-- The two functions of the JavaScript `Math` object that the source calls. -/
class JSMath (α : Type) where
  hypot : α → α → α
  atan2 : α → α → α

/-- A `THREE.Object3D` as far as `App.js` touches it: the loaded glTF scene graph
(kept as a name, its meshes and materials are never inspected after loading) and
the transform. -/
structure Object3D (α : Type) where
  gltfScene : String
  position : Vector3 α
  quaternion : Quaternion α
  rotation : Euler α
  scale : Vector3 α
  deriving DecidableEq, Repr

/-- The method `Vector3.set`. -/
def Vector3.set {α : Type} (_v : Vector3 α) (x y z : α) : Vector3 α :=
  { x := x, y := y, z := z }

/-- The method `Vector3.multiplyScalar`. -/
def Vector3.multiplyScalar {α : Type} [Mul α] (v : Vector3 α) (scalar : α) : Vector3 α :=
  { x := v.x * scalar, y := v.y * scalar, z := v.z * scalar }

/-- The method `Matrix4.fromArray` applied to a sixteen-entry array. -/
def Matrix4.fromArray {α : Type} (_m : Matrix4 α) (array : Fin 16 → α) : Matrix4 α :=
  { elements := fun i => array i }

/-- The method `Object3D.clone`: a fresh object with the same content and transform. -/
def Object3D.clone {α : Type} (o : Object3D α) : Object3D α :=
  { gltfScene := o.gltfScene, position := o.position, quaternion := o.quaternion,
    rotation := o.rotation, scale := o.scale }

/-- The call `m.decompose(o.position, o.quaternion, o.scale)`: the three parts of `m`
are written into the object; writing the quaternion refreshes the Euler angles. -/
def Object3D.decomposeFrom {α : Type} [Three α] (o : Object3D α) (m : Matrix4 α) :
    Object3D α :=
  { o with
    position := (Three.decompose m).1
    quaternion := (Three.decompose m).2.1
    rotation := Three.eulerFromQuaternion (Three.decompose m).2.1
    scale := (Three.decompose m).2.2 }

/-- The assignment `o.rotation.y += d`: writing an Euler angle refreshes the quaternion. -/
def Object3D.addRotationY {α : Type} [Add α] [Three α] (o : Object3D α) (d : α) :
    Object3D α :=
  { o with
    rotation := { o.rotation with y := o.rotation.y + d }
    quaternion := Three.quaternionFromEuler { o.rotation with y := o.rotation.y + d } }

/-! ## WebXR and DOM inputs -/

/-- An `XRRigidTransform`: its `matrix` is a `Float32Array` of length 16. -/
structure XRRigidTransform (α : Type) where
  matrix : Fin 16 → α

/-- An `XRPose`. -/
structure XRPose (α : Type) where
  transform : XRRigidTransform α

/-- An `XRHitTestResult`: `getPose` is the outcome of `getPose(referenceSpace)`,
which WebXR allows to be `null`. -/
structure XRHitTestResult (α : Type) where
  getPose : Option (XRPose α)

/-- An `XRHitTestSource` handle. -/
structure XRHitTestSource where
  id : Nat
  deriving DecidableEq, Repr

/-- An `XRFrame`, as far as `render` reads it. -/
structure XRFrame (α : Type) where
  getHitTestResults : XRHitTestSource → List (XRHitTestResult α)

/-- One entry of `e.touches`. -/
structure Touch (α : Type) where
  clientX : α
  clientY : α
  deriving DecidableEq, Repr

/-- A DOM `TouchEvent`, as far as the listeners read it. -/
structure TouchEvent (α : Type) where
  touches : List (Touch α)
  deriving DecidableEq, Repr

/-- The method `DOMTokenList.remove` for one token. -/
def classListRemove (classList : List String) (token : String) : List String :=
  classList.filter (fun c => c != token)

/-- The method `DOMTokenList.add` for one token. -/
def classListAdd (classList : List String) (token : String) : List String :=
  if token ∈ classList then classList else classList ++ [token]

/-! ## The state of the component -/

/-- The reticle mesh, as far as the source reads and writes it. -/
structure Reticle (α : Type) where
  visible : Bool
  matrix : Matrix4 α

/-- The mutable variables of `App`.

* `scene` lists the placed models among the children of the three.js scene, in
  the order `scene.add` inserted them (the lights, the reticle and the
  controller are children as well; no function below adds, removes or changes
  them as scene members).
* `selectedModel` is a reference to one of those objects or `null`: here the
  position of the object in `scene`.
* `items` is the sparse array filled by the loader callbacks; a slot that has not
  been assigned is `none` (reads as `undefined` in the source).
* `itemSelectedIndex` is only ever assigned `0` and the loop variable
  `i < models.length = 10`, hence a `Fin 10`.
* `lastTouchX`, `lastTouchY` are the locals of `setupTouchGestures` captured by
  its two listeners.
* `menu j` is the `classList` of the element `#item j`. -/
structure State (α : Type) where
  scene : List (Object3D α)
  reticle : Reticle α
  items : Fin 10 → Option (Object3D α)
  itemSelectedIndex : Fin 10
  selectedModel : Option Nat
  hitTestSource : Option XRHitTestSource
  hitTestSourceRequested : Bool
  lastTouchDistance : α
  initialRotation : α
  lastTouchX : α
  lastTouchY : α
  menu : Fin 10 → List String

/-- The exceptions the modelled code can raise: reading a property of
`undefined` or `null`. -/
inductive JSError where
  | TypeError
  deriving DecidableEq, Repr

/-- How a callback ends: normally, or by throwing; either way with the state as
the callback left it. -/
inductive Completion (σ : Type) where
  | normal (s : σ)
  | throw (err : JSError) (s : σ)

/-- The state a callback leaves behind. -/
def Completion.state {σ : Type} : Completion σ → σ
  | .normal s => s
  | .throw _ s => s

/-- Whether a callback threw. -/
def Completion.threw {σ : Type} : Completion σ → Bool
  | .normal _ => false
  | .throw _ _ => true

section Code

variable {α : Type} [Add α] [Sub α] [Mul α] [Div α] [OfScientific α] [One α]
variable [JSMath α] [Three α]

/-- The table `modelScaleFactor` (line 23). -/
def modelScaleFactor : Fin 10 → α :=
  ![0.01, 0.01, 0.005, 0.01, 0.01, 0.01, 0.1, 1, 1, 1]

/-- The function `getDistance` (lines 192-197). -/
def getDistance (touch1 touch2 : Touch α) : α :=
  JSMath.hypot (touch2.clientX - touch1.clientX) (touch2.clientY - touch1.clientY)

/-- The function `getAngle` (lines 199-204). -/
def getAngle (touch1 touch2 : Touch α) : α :=
  JSMath.atan2 (touch2.clientY - touch1.clientY) (touch2.clientX - touch1.clientX)

/-- The function `onSelect` (lines 120-131).  With the reticle visible, the first
statement reads `items[itemSelectedIndex].clone`; on an unassigned slot that is
a property read on `undefined`, which throws before anything is written. -/
def onSelect (s : State α) : Completion (State α) :=
  if s.reticle.visible then
    match s.items s.itemSelectedIndex with
    | none => .throw .TypeError s
    | some item =>
      let model := item.clone
      let scale : α := modelScaleFactor s.itemSelectedIndex
      let model := model.decomposeFrom s.reticle.matrix
      let model := { model with scale := model.scale.set scale scale scale }
      .normal { s with scene := s.scene ++ [model], selectedModel := some s.scene.length }
  else
    .normal s

/-- The `click` listener that `setupFurnitureSelection` installs on `#item i`
(lines 137-144).  The inner loop removes the class from every entry in turn. -/
def onClick (i : Fin 10) (s : State α) : State α :=
  let menu := (List.finRange 10).foldl
    (fun m j => Function.update m j (classListRemove (m j) "clicked")) s.menu
  { s with
    itemSelectedIndex := i
    menu := Function.update menu i (classListAdd (menu i) "clicked") }

/-- The `touchstart` listener (lines 151-160). -/
def touchstart (e : TouchEvent α) (s : State α) : State α :=
  match s.selectedModel, e.touches with
  | none, _ => s
  | some _, [] => s
  | some _, [t0, t1] =>
    { s with lastTouchDistance := getDistance t0 t1, initialRotation := getAngle t0 t1 }
  | some _, t0 :: _ =>
    { s with lastTouchX := t0.clientX, lastTouchY := t0.clientY }

/-- The `touchmove` listener (lines 162-189).  The writes go through the
reference `selectedModel`, that is to the object at that place of the scene. -/
def touchmove (e : TouchEvent α) (s : State α) : State α :=
  match s.selectedModel with
  | none => s
  | some sel =>
    match e.touches with
    | [t0] =>
      let deltaX := (t0.clientX - s.lastTouchX) * 0.001
      let deltaZ := (t0.clientY - s.lastTouchY) * 0.001
      { s with
        scene := s.scene.modify
          (fun o => { o with position :=
            { o.position with x := o.position.x + deltaX, z := o.position.z + deltaZ } }) sel
        lastTouchX := t0.clientX
        lastTouchY := t0.clientY }
    | [t0, t1] =>
      let newDistance := getDistance t0 t1
      let scale := newDistance / s.lastTouchDistance
      let newAngle := getAngle t0 t1
      let deltaAngle := newAngle - s.initialRotation
      { s with
        scene := s.scene.modify
          (fun o => Object3D.addRotationY
            { o with scale := o.scale.multiplyScalar scale } (deltaAngle * 0.01)) sel
        lastTouchDistance := newDistance
        initialRotation := newAngle }
    | _ => s

/-- The function `render` (lines 210-243) for one animation-loop callback;
`frame` is `none` outside an AR session.  The two promises started on the first
frame of a session settle later (see `onHitTestSource`); the draw call does not
change the state. -/
def render (frame : Option (XRFrame α)) (s : State α) : Completion (State α) :=
  match frame with
  | none => .normal s
  | some f =>
    let s := if !s.hitTestSourceRequested then { s with hitTestSourceRequested := true } else s
    match s.hitTestSource with
    | none => .normal s
    | some source =>
      match f.getHitTestResults source with
      | [] => .normal { s with reticle := { s.reticle with visible := false } }
      | hit :: _ =>
        let s := { s with reticle := { s.reticle with visible := true } }
        match hit.getPose with
        | none => .throw .TypeError s
        | some pose =>
          .normal { s with reticle :=
            { s.reticle with matrix := s.reticle.matrix.fromArray pose.transform.matrix } }

/-- The loader callback of slot `i` (lines 90-99): `items[i] = model`. -/
def onLoad (i : Fin 10) (model : Object3D α) (s : State α) : State α :=
  { s with items := Function.update s.items i (some model) }

/-- The continuation of `requestHitTestSource` (lines 217-219). -/
def onHitTestSource (source : XRHitTestSource) (s : State α) : State α :=
  { s with hitTestSource := some source }

/-- The session `end` listener (lines 222-225). -/
def onSessionEnd (s : State α) : State α :=
  { s with hitTestSourceRequested := false, hitTestSource := none }

/-! ## The event loop -/

/-- What the browser can deliver to the component. -/
inductive Event (α : Type) where
  | select
  | click (i : Fin 10)
  | touchStart (e : TouchEvent α)
  | touchMove (e : TouchEvent α)
  | animationFrame (frame : Option (XRFrame α))
  | load (i : Fin 10) (model : Object3D α)
  | hitTestSource (source : XRHitTestSource)
  | sessionEnd

/-- The callback that an event runs. -/
def step (ev : Event α) (s : State α) : Completion (State α) :=
  match ev with
  | .select => onSelect s
  | .click i => .normal (onClick i s)
  | .touchStart e => .normal (touchstart e s)
  | .touchMove e => .normal (touchmove e s)
  | .animationFrame frame => render frame s
  | .load i model => .normal (onLoad i model s)
  | .hitTestSource source => .normal (onHitTestSource source s)
  | .sessionEnd => .normal (onSessionEnd s)

/-- A sequence of events, one callback after the other.  An exception ends the
callback that raised it and nothing else: the next event finds the state as
that callback left it. -/
def run (evs : List (Event α)) (s : State α) : State α :=
  evs.foldl (fun st ev => (step ev st).state) s

/-- The state when `App` has run `init` and `setupFurnitureSelection` (lines
24-33, 103-108, 149): nothing placed, nothing loaded, the reticle hidden with
the identity matrix of a new mesh.  The class lists of the menu come from the
page. -/
def init [Zero α] (menu : Fin 10 → List String) : State α :=
  { scene := []
    reticle := { visible := false, matrix := { elements := fun i => if i.val % 5 = 0 then 1 else 0 } }
    items := fun _ => none
    itemSelectedIndex := 0
    selectedModel := none
    hitTestSource := none
    hitTestSourceRequested := false
    lastTouchDistance := 0
    initialRotation := 0
    lastTouchX := 0
    lastTouchY := 0
    menu := menu }

/-- Whether an event is a `touchstart` or a `touchmove`. -/
def Event.isTouch : Event α → Bool
  | .touchStart _ => true
  | .touchMove _ => true
  | _ => false

/-- A touch event with one contact, at `(x, y)`. -/
def oneTouch (p : α × α) : TouchEvent α :=
  { touches := [{ clientX := p.1, clientY := p.2 }] }

/-- A touch event with two contacts. -/
def twoTouches (p : Touch α × Touch α) : TouchEvent α :=
  { touches := [p.1, p.2] }

/-- The events of a one-finger drag: a `touchstart` with one contact at `start`,
then a `touchmove` with one contact at each of `moves` in turn. -/
def dragEvents (start : α × α) (moves : List (α × α)) : List (Event α) :=
  .touchStart (oneTouch start) :: moves.map (fun p => .touchMove (oneTouch p))

/-- The events of a two-finger gesture: a `touchstart` with the two contacts
`start`, then a `touchmove` with each pair of contacts of `moves` in turn. -/
def pinchEvents (start : Touch α × Touch α) (moves : List (Touch α × Touch α)) :
    List (Event α) :=
  .touchStart (twoTouches start) :: moves.map (fun p => .touchMove (twoTouches p))

/-- The inter-touch distances of a two-finger gesture, one per event, as
`getDistance` computes them. -/
def pinchDistances (start : Touch α × Touch α) (moves : List (Touch α × Touch α)) : List α :=
  getDistance start.1 start.2 :: moves.map (fun p => getDistance p.1 p.2)

end Code

/-! ## Double-precision numbers -/

/-- A JavaScript number as far as this development follows it: a finite IEEE 754
double, held as the pair `(mant, expo)` that stands for `mant * 2 ^ expo`, with
`mant` odd or both components zero; or `untracked`, which stands for the
infinities, NaN, and everything computed from them.  The sign of a zero is not
recorded (it only shows in a division by zero, which is `untracked`). -/
inductive Float64 where
  | finite (mant : Int) (expo : Int)
  | untracked
  deriving DecidableEq, Repr

namespace Float64

/-- The position of the leading bit of `n` (zero for `n < 2`); the first argument
bounds the number of halvings. -/
def floorLog2 : Nat → Nat → Nat
  | 0, _ => 0
  | fuel + 1, n => if n < 2 then 0 else floorLog2 fuel (n / 2) + 1

/-- The integer `c` with `2 ^ c ≤ a / den < 2 ^ (c + 1)`, for positive `a` and `den`. -/
def floorLog2Ratio (a den : Nat) : Int :=
  let c : Int := (floorLog2 a a : Int) - (floorLog2 den den : Int)
  if (if 0 ≤ c then den * 2 ^ c.toNat ≤ a else den ≤ a * 2 ^ (-c).toNat) then c else c - 1

/-- The pair for `m * 2 ^ e` with the trailing zero bits of `m` moved into the
exponent. -/
def normalize : Nat → Int → Int → Int × Int
  | 0, m, e => (m, e)
  | fuel + 1, m, e =>
    if m = 0 then (0, 0)
    else if m % 2 = 0 then normalize fuel (m / 2) (e + 1)
    else (m, e)

/-- The double nearest to the rational `num / den * 2 ^ exp2` (`den` positive),
ties going to the even significand: 53 significant bits, the exponent of the
last place not below `-1074`; a result of magnitude `2 ^ 1024` or more is an
infinity. -/
def round (num : Int) (den : Nat) (exp2 : Int) : Float64 :=
  if num = 0 then finite 0 0 else
  let a := num.natAbs
  let e := floorLog2Ratio a den + exp2
  if 1024 ≤ e then untracked else
  let u := max e (-1022) - 52
  let s := exp2 - u
  let n' := if 0 ≤ s then a * 2 ^ s.toNat else a
  let d' := if 0 ≤ s then den else den * 2 ^ (-s).toNat
  let q := n' / d'
  let r := n' % d'
  let n := if d' < 2 * r ∨ (2 * r = d' ∧ q % 2 = 1) then q + 1 else q
  if u = 971 ∧ n = 2 ^ 53 then untracked else
  let p := normalize 64 (n : Int) u
  finite (if num < 0 then -p.1 else p.1) p.2

/-- The operator `+` on numbers. -/
def add : Float64 → Float64 → Float64
  | finite m1 e1, finite m2 e2 =>
    round (m1 * 2 ^ (e1 - min e1 e2).toNat + m2 * 2 ^ (e2 - min e1 e2).toNat) 1 (min e1 e2)
  | _, _ => untracked

/-- The unary operator `-`. -/
def neg : Float64 → Float64
  | finite m e => finite (-m) e
  | untracked => untracked

/-- The operator `-` on numbers. -/
def sub (a b : Float64) : Float64 := add a (neg b)

/-- The operator `*` on numbers. -/
def mul : Float64 → Float64 → Float64
  | finite m1 e1, finite m2 e2 => round (m1 * m2) 1 (e1 + e2)
  | _, _ => untracked

/-- The operator `/` on numbers; a division by zero gives an infinity or NaN. -/
def div : Float64 → Float64 → Float64
  | finite m1 e1, finite m2 e2 =>
    if m2 = 0 then untracked
    else round (if m2 < 0 then -m1 else m1) m2.natAbs (e1 - e2)
  | _, _ => untracked

/-- The function `Math.abs`. -/
def abs : Float64 → Float64
  | finite m e => finite (Int.natAbs m) e
  | untracked => untracked

/-- The value of a decimal literal: `mantissa * 10 ^ ∓decimalExponent`, rounded. -/
def ofScientific (mantissa : Nat) (exponentSign : Bool) (decimalExponent : Nat) : Float64 :=
  if exponentSign then round mantissa (10 ^ decimalExponent) 0
  else round (mantissa * 10 ^ decimalExponent) 1 0

instance : Add Float64 := ⟨add⟩

instance : Sub Float64 := ⟨sub⟩

instance : Mul Float64 := ⟨mul⟩

instance : Div Float64 := ⟨div⟩

instance : Neg Float64 := ⟨neg⟩

instance : OfScientific Float64 := ⟨ofScientific⟩

instance : One Float64 := ⟨finite 1 0⟩

instance : Zero Float64 := ⟨finite 0 0⟩

instance (n : Nat) : OfNat Float64 n := ⟨round n 1 0⟩

end Float64

/-! ## Concrete instances over the rationals -/

/-- A rational stand-in for `Math.hypot` and `Math.atan2`, exact for two touches on
a horizontal line with the second one to the right of the first. -/
instance axisMath : JSMath ℚ where
  hypot a b := |a| + |b|
  atan2 _ _ := 0

/-- A rational stand-in for the three.js conversions, exact for pure translations:
the position is read from entries 12 to 14, there is no rotation and no scaling. -/
instance translationThree : Three ℚ where
  decompose m := (⟨m.elements 12, m.elements 13, m.elements 14⟩, ⟨0, 0, 0, 1⟩, ⟨1, 1, 1⟩)
  eulerFromQuaternion _ := ⟨0, 0, 0⟩
  quaternionFromEuler _ := ⟨0, 0, 0, 1⟩

/-- A page on which no menu entry carries a class. -/
def plainMenu : Fin 10 → List String := fun _ => []

/-- The pose matrix of a translation by `(x, y, z)`. -/
def translationMatrix (x y z : ℚ) : Fin 16 → ℚ :=
  ![1, 0, 0, 0, 0, 1, 0, 0, 0, 0, 1, 0, x, y, z, 1]

/-- A frame whose hit test finds one surface point, at `(1, 0, -2)`. -/
def hitFrame : XRFrame ℚ :=
  { getHitTestResults := fun _ => [{ getPose := some { transform := { matrix := translationMatrix 1 0 (-2) } } }] }

/-- A frame whose hit test finds nothing. -/
def emptyFrame : XRFrame ℚ :=
  { getHitTestResults := fun _ => [] }

/-- A loaded model, as the loader hands it over. -/
def tableModel : Object3D ℚ :=
  { gltfScene := "./marble_coffee_table.glb"
    position := ⟨0, 0, 0⟩, quaternion := ⟨0, 0, 0, 1⟩, rotation := ⟨0, 0, 0⟩, scale := ⟨1, 1, 1⟩ }

/-- A session in which the hit-test source arrives and a surface is found:
afterwards the reticle is visible at `(1, 0, -2)` and no model has loaded. -/
def trackingTrace : List (Event ℚ) :=
  [.animationFrame (some hitFrame), .hitTestSource ⟨1⟩, .animationFrame (some hitFrame)]

/-- The session of `trackingTrace` after the third menu entry was clicked and its
model loaded. -/
def readyTrace : List (Event ℚ) :=
  trackingTrace ++ [.click 2, .load 2 tableModel]

/-- The session of `trackingTrace` once it has ended: the hit-test source is gone,
the reticle was last seen on a surface. -/
def endedTrace : List (Event ℚ) :=
  trackingTrace ++ [.sessionEnd]

/-- The state at startup, on the plain page. -/
def startState : State ℚ := init plainMenu

/-- The state after `trackingTrace`. -/
def trackingState : State ℚ := run trackingTrace startState

/-- The state after `readyTrace`. -/
def readyState : State ℚ := run readyTrace startState

/-- The state after `endedTrace`. -/
def endedState : State ℚ := run endedTrace startState

/-- The state after `readyTrace` and one placement. -/
def placedState : State ℚ := (onSelect readyState).state

/-! ## Concrete instances over the doubles -/

/-- A stand-in for `Math.hypot` and `Math.atan2` on doubles, exact for two touches
on a horizontal line with the second one to the right of the first. -/
instance axisMathDouble : JSMath Float64 where
  hypot a b := Float64.abs a + Float64.abs b
  atan2 _ _ := 0

/-- A stand-in for the three.js conversions on doubles, exact for pure translations. -/
instance translationThreeDouble : Three Float64 where
  decompose m := (⟨m.elements 12, m.elements 13, m.elements 14⟩, ⟨0, 0, 0, 1⟩, ⟨1, 1, 1⟩)
  eulerFromQuaternion _ := ⟨0, 0, 0⟩
  quaternionFromEuler _ := ⟨0, 0, 0, 1⟩

/-- A frame whose hit test finds one surface point, at `(1, 0, -2)`, in doubles. -/
def hitFrameDouble : XRFrame Float64 :=
  { getHitTestResults := fun _ =>
      [{ getPose := some { transform :=
          { matrix := ![1, 0, 0, 0, 0, 1, 0, 0, 0, 0, 1, 0, 1, 0, -2, 1] } } }] }

/-- A loaded model, in doubles. -/
def tableModelDouble : Object3D Float64 :=
  { gltfScene := "./marble_coffee_table.glb"
    position := ⟨0, 0, 0⟩, quaternion := ⟨0, 0, 0, 1⟩, rotation := ⟨0, 0, 0⟩, scale := ⟨1, 1, 1⟩ }

/-- The session of `readyTrace`, in doubles. -/
def readyTraceDouble : List (Event Float64) :=
  [.animationFrame (some hitFrameDouble), .hitTestSource ⟨1⟩,
    .animationFrame (some hitFrameDouble), .click 2, .load 2 tableModelDouble]

/-- The state after `readyTraceDouble` and one placement: one model of scale
`0.005` at `(1, 0, -2)`, which is the active object. -/
def placedDouble : State Float64 :=
  (onSelect (run readyTraceDouble (init plainMenu))).state

/-- A frame whose hit test reports one result for which `getPose` returns `null`. -/
def poselessFrame : XRFrame ℚ :=
  { getHitTestResults := fun _ => [{ getPose := none }] }

/-- The state once the hit-test source has arrived, before any surface was found. -/
def sourceReadyState : State ℚ :=
  run [.animationFrame (some emptyFrame), .hitTestSource ⟨1⟩] startState

end ARRoom

namespace ARRoom

/-! ## Placement -/

section Placement

variable {α : Type} [OfScientific α] [One α] [Three α]

/-- C1. With menu index 2 selected, its model loaded and the reticle visible with
matrix `M`, `onSelect` completes normally; the scene is the old scene followed by
exactly one new object, a clone of `items[2]` whose position and orientation are
the ones decomposed from `M` and whose scale is `(0.005, 0.005, 0.005)` whatever
scale `M` carries; `selectedModel` refers to that new object; nothing else
changes. -/
theorem onSelect_places_selected_model (s : State α) (item : Object3D α)
    (hindex : s.itemSelectedIndex = 2) (hloaded : s.items 2 = some item)
    (hvisible : s.reticle.visible = true) :
    onSelect s = .normal
      { s with
        scene := s.scene ++
          [{ gltfScene := item.gltfScene
             position := (Three.decompose s.reticle.matrix).1
             quaternion := (Three.decompose s.reticle.matrix).2.1
             rotation := Three.eulerFromQuaternion (Three.decompose s.reticle.matrix).2.1
             scale := ⟨0.005, 0.005, 0.005⟩ }]
        selectedModel := some s.scene.length } := by
  unfold onSelect
  rw [hvisible, hindex, hloaded]
  rfl

/-- C2. With the reticle hidden, `onSelect` completes normally and returns the
state it was given, for every selected index and every load state. -/
theorem onSelect_hidden_reticle (s : State α) (hhidden : s.reticle.visible = false) :
    onSelect s = .normal s := by
  unfold onSelect
  rw [hhidden]
  rfl

/-- C3. With the reticle visible and the selected slot of `items` not yet
assigned, `onSelect` does not complete normally: it throws a `TypeError`, having
changed nothing. -/
theorem onSelect_unloaded_throws (s : State α) (hvisible : s.reticle.visible = true)
    (hpending : s.items s.itemSelectedIndex = none) :
    onSelect s = .throw .TypeError s := by
  unfold onSelect
  rw [hvisible, hpending]
  rfl

end Placement

/-! ## Surface tracking -/

section Tracking

variable {α : Type}

/-- C8, as the code has it. On a frame for which a hit-test source exists: if the
list of results starts with a result for which `getPose` yields a pose, `render`
completes normally, the reticle is visible afterwards and its matrix is the
matrix of that pose; if the list is empty, `render` completes normally, the
reticle is invisible afterwards and its matrix is the one it had before. -/
theorem render_tracks_first_hit (s : State α) (frame : XRFrame α) (source : XRHitTestSource)
    (hsource : s.hitTestSource = some source) :
    (∀ hit rest pose, frame.getHitTestResults source = hit :: rest →
      hit.getPose = some pose →
        (render (some frame) s).threw = false ∧
        (render (some frame) s).state.reticle.visible = true ∧
        (render (some frame) s).state.reticle.matrix = ⟨pose.transform.matrix⟩) ∧
    (frame.getHitTestResults source = [] →
      (render (some frame) s).threw = false ∧
      (render (some frame) s).state.reticle.visible = false ∧
      (render (some frame) s).state.reticle.matrix = s.reticle.matrix) := by
  refine ⟨fun hit rest pose hres hpose => ?_, fun hres => ?_⟩
  · cases hreq : s.hitTestSourceRequested <;>
      simp [render, hreq, hsource, hres, hpose, Completion.state, Completion.threw,
        Matrix4.fromArray]
  · cases hreq : s.hitTestSourceRequested <;>
      simp [render, hreq, hsource, hres, Completion.state, Completion.threw]

/-- C9, as the code has it. On a frame for which no hit-test source has been
obtained, `render` completes normally and changes nothing but the flag
`hitTestSourceRequested`: the reticle keeps its visibility and its matrix, so it
is invisible afterwards exactly when it was invisible before. -/
theorem render_without_source (s : State α) (frame : XRFrame α)
    (hnone : s.hitTestSource = none) :
    render (some frame) s = .normal { s with hitTestSourceRequested := true } := by
  obtain ⟨scene, reticle, items, index, selected, source, requested, d, r, x, y, menu⟩ := s
  subst hnone
  cases requested <;> rfl

end Tracking

/-! ## Gestures without an active object -/

section Idle

variable {α : Type} [Sub α] [Mul α] [Add α] [Div α] [OfScientific α] [JSMath α] [Three α]

/-- C7. With `selectedModel` null, every `touchstart` and every `touchmove`, with
any number of contacts, returns the state it was given: the scene, the three
touch baselines and everything else keep their values. -/
theorem touch_without_active_object (s : State α) (e : TouchEvent α)
    (hnull : s.selectedModel = none) :
    touchstart e s = s ∧ touchmove e s = s := by
  constructor
  · unfold touchstart
    rw [hnull]
  · unfold touchmove
    rw [hnull]

end Idle

/-! ## One-finger drag -/

section Drag

variable {α : Type} [Add α] [Sub α] [Mul α] [Div α] [OfScientific α] [One α]
variable [JSMath α] [Three α]

theorem run_cons (ev : Event α) (evs : List (Event α)) (s : State α) :
    run (ev :: evs) s = run evs (step ev s).state := rfl

theorem run_append (evs₁ evs₂ : List (Event α)) (s : State α) :
    run (evs₁ ++ evs₂) s = run evs₂ (run evs₁ s) := by
  simp [run, List.foldl_append]

theorem modify_eq_set_of_getElem? {β : Type} (f : β → β) (l : List β) (n : Nat) (b : β)
    (h : l[n]? = some b) : l.modify f n = l.set n (f b) := by
  induction l generalizing n with
  | nil => simp at h
  | cons a l ih =>
    cases n with
    | zero =>
      simp only [List.getElem?_cons_zero, Option.some.injEq] at h
      subst h
      rfl
    | succ n =>
      simp only [List.getElem?_cons_succ] at h
      simp [List.modify, List.modifyTailIdx, List.set] at *
      exact ih n h

theorem set_eq_self_of_getElem? {β : Type} (l : List β) (n : Nat) (b : β)
    (h : l[n]? = some b) : l.set n b = l := by
  induction l generalizing n with
  | nil => rfl
  | cons a l ih =>
    cases n with
    | zero =>
      simp only [List.getElem?_cons_zero, Option.some.injEq] at h
      subst h
      rfl
    | succ n =>
      simp only [List.getElem?_cons_succ] at h
      simp [List.set, ih n h]

/-- One `touchmove` with one contact, on an active object. -/
theorem touchmove_one (s : State α) (sel : Nat) (obj : Object3D α) (p : α × α)
    (hactive : s.selectedModel = some sel) (hobj : s.scene[sel]? = some obj) :
    touchmove (oneTouch p) s =
      { s with
        scene := s.scene.set sel
          { obj with position :=
            { x := obj.position.x + (p.1 - s.lastTouchX) * 0.001
              y := obj.position.y
              z := obj.position.z + (p.2 - s.lastTouchY) * 0.001 } }
        lastTouchX := p.1
        lastTouchY := p.2 } := by
  simp only [touchmove, hactive, oneTouch]
  rw [modify_eq_set_of_getElem? _ _ _ _ hobj]

/-- A drag under any arithmetic: the moves add their deltas to `x` and `z` one
after the other, in the order of the events. -/
theorem run_moves_accumulate (moves : List (α × α)) (s : State α) (sel : Nat)
    (obj : Object3D α) (hactive : s.selectedModel = some sel)
    (hobj : s.scene[sel]? = some obj) :
    (run (moves.map (fun p => Event.touchMove (oneTouch p))) s).scene = s.scene.set sel
      { obj with position :=
        { x := (List.zipWith (fun a b => (b - a) * 0.001)
                  (s.lastTouchX :: moves.map Prod.fst) (moves.map Prod.fst)).foldl
                  (fun acc d => acc + d) obj.position.x
          y := obj.position.y
          z := (List.zipWith (fun a b => (b - a) * 0.001)
                  (s.lastTouchY :: moves.map Prod.snd) (moves.map Prod.snd)).foldl
                  (fun acc d => acc + d) obj.position.z } } := by
  induction moves generalizing s obj with
  | nil =>
    simp only [List.map_nil, run, List.foldl_nil, List.zipWith_nil_right]
    exact (set_eq_self_of_getElem? _ _ _ hobj).symm
  | cons p moves ih =>
    have hlt : sel < s.scene.length := by
      rcases List.getElem?_eq_some_iff.mp hobj with ⟨h, _⟩
      exact h
    have hs := touchmove_one s sel obj p hactive hobj
    have hstep : (step (Event.touchMove (oneTouch p)) s).state = touchmove (oneTouch p) s := rfl
    rw [List.map_cons, run_cons, hstep]
    rw [ih (touchmove (oneTouch p) s)
      { obj with position :=
        { x := obj.position.x + (p.1 - s.lastTouchX) * 0.001
          y := obj.position.y
          z := obj.position.z + (p.2 - s.lastTouchY) * 0.001 } }
      (by rw [hs]; exact hactive) (by rw [hs]; simp [List.getElem?_set, hlt])]
    rw [hs]
    simp [List.set_set]

/-- A `touchstart` with one contact, on an active object, records the contact. -/
theorem touchstart_one (s : State α) (sel : Nat) (p : α × α)
    (hactive : s.selectedModel = some sel) :
    touchstart (oneTouch p) s = { s with lastTouchX := p.1, lastTouchY := p.2 } := by
  simp only [touchstart, hactive, oneTouch]

/-- A whole drag under any arithmetic: the object ends where the moves, taken in
order, have carried it. -/
theorem run_drag_accumulate (start : α × α) (moves : List (α × α)) (s : State α) (sel : Nat)
    (obj : Object3D α) (hactive : s.selectedModel = some sel)
    (hobj : s.scene[sel]? = some obj) :
    (run (dragEvents start moves) s).scene = s.scene.set sel
      { obj with position :=
        { x := (List.zipWith (fun a b => (b - a) * 0.001)
                  (start.1 :: moves.map Prod.fst) (moves.map Prod.fst)).foldl
                  (fun acc d => acc + d) obj.position.x
          y := obj.position.y
          z := (List.zipWith (fun a b => (b - a) * 0.001)
                  (start.2 :: moves.map Prod.snd) (moves.map Prod.snd)).foldl
                  (fun acc d => acc + d) obj.position.z } } := by
  have hstep : (step (Event.touchStart (oneTouch start)) s).state = touchstart (oneTouch start) s :=
    rfl
  have hs := touchstart_one s sel start hactive
  rw [dragEvents, run_cons, hstep,
    run_moves_accumulate moves (touchstart (oneTouch start) s) sel obj
      (by rw [hs]; exact hactive) (by rw [hs]; exact hobj), hs]

/-- C4, as the code has it. A one-finger drag on an active object, in whatever
arithmetic the numbers have (the program's doubles included): after a
`touchstart` with one contact at `(x0, y0)` and `touchmove`s with one contact at
`(x1, y1)`, ..., `(xn, yn)`, the scene is the old scene with the active object
moved; its `x` is the initial `x` with the deltas `(xk - x(k-1)) * 0.001` added
one after the other in the order of the events, its `z` the initial `z` with the
deltas `(yk - y(k-1)) * 0.001` added likewise; `y` and the rest of the object
are unchanged. -/
theorem single_finger_drag_accumulates (s : State α) (sel : Nat) (obj : Object3D α)
    (hactive : s.selectedModel = some sel) (hobj : s.scene[sel]? = some obj)
    (start : α × α) (moves : List (α × α)) :
    (run (dragEvents start moves) s).scene = s.scene.set sel
      { gltfScene := obj.gltfScene
        position :=
          { x := (List.zipWith (fun a b => (b - a) * 0.001)
                    (start.1 :: moves.map Prod.fst) (moves.map Prod.fst)).foldl
                    (fun acc d => acc + d) obj.position.x
            y := obj.position.y
            z := (List.zipWith (fun a b => (b - a) * 0.001)
                    (start.2 :: moves.map Prod.snd) (moves.map Prod.snd)).foldl
                    (fun acc d => acc + d) obj.position.z }
        quaternion := obj.quaternion
        rotation := obj.rotation
        scale := obj.scale } := by
  have hstart : (step (Event.touchStart (oneTouch start)) s).state
      = { s with lastTouchX := start.1, lastTouchY := start.2 } := by
    simp only [step, Completion.state, touchstart, hactive, oneTouch]
  rw [dragEvents, run_cons, hstart]
  exact run_moves_accumulate moves { s with lastTouchX := start.1, lastTouchY := start.2 }
    sel obj hactive hobj

end Drag

section DragExact

variable {K : Type} [Field K] [JSMath K] [Three K]

theorem foldl_add_eq_add_sum (l : List K) (a : K) :
    l.foldl (fun acc d => acc + d) a = a + l.sum := by
  induction l generalizing a with
  | nil => simp
  | cons d l ih => rw [List.foldl_cons, ih, List.sum_cons, add_assoc]

theorem sum_deltas_telescope (c x0 : K) (xs : List K) :
    (List.zipWith (fun a b => c * (b - a)) (x0 :: xs) xs).sum = c * (xs.getLastD x0 - x0) := by
  induction xs generalizing x0 with
  | nil => simp
  | cons x xs ih =>
    rw [List.zipWith_cons_cons, List.sum_cons, ih, List.getLastD_cons]
    ring

/-- A one-finger drag in exact arithmetic, where no operation rounds: the order of
the additions does not matter, the active object ends at its initial position
plus the sum of the per-move deltas, and the two sums are `0.001 * (xn - x0)`
and `0.001 * (yn - y0)`. -/
theorem drag_closed_form_exact (s : State K) (sel : Nat) (obj : Object3D K)
    (hactive : s.selectedModel = some sel) (hobj : s.scene[sel]? = some obj)
    (start : K × K) (moves : List (K × K)) :
    (run (dragEvents start moves) s).scene = s.scene.set sel
      { obj with position :=
        { x := obj.position.x + (List.zipWith (fun a b => 0.001 * (b - a))
                  (start.1 :: moves.map Prod.fst) (moves.map Prod.fst)).sum
          y := obj.position.y
          z := obj.position.z + (List.zipWith (fun a b => 0.001 * (b - a))
                  (start.2 :: moves.map Prod.snd) (moves.map Prod.snd)).sum } } ∧
    (List.zipWith (fun a b => 0.001 * (b - a))
        (start.1 :: moves.map Prod.fst) (moves.map Prod.fst)).sum
      = 0.001 * ((moves.map Prod.fst).getLastD start.1 - start.1) ∧
    (List.zipWith (fun a b => 0.001 * (b - a))
        (start.2 :: moves.map Prod.snd) (moves.map Prod.snd)).sum
      = 0.001 * ((moves.map Prod.snd).getLastD start.2 - start.2) := by
  refine ⟨?_, sum_deltas_telescope _ _ _, sum_deltas_telescope _ _ _⟩
  rw [run_drag_accumulate start moves s sel obj hactive hobj]
  simp only [foldl_add_eq_add_sum, mul_comm]

end DragExact

/-! ## Two-finger pinch -/

section Pinch

variable {α : Type} [Add α] [Sub α] [Mul α] [Div α] [OfScientific α] [One α]
variable [JSMath α] [Three α]

/-- One `touchmove` with two contacts, on an active object. -/
theorem touchmove_two (s : State α) (sel : Nat) (obj : Object3D α) (p : Touch α × Touch α)
    (hactive : s.selectedModel = some sel) (hobj : s.scene[sel]? = some obj) :
    touchmove (twoTouches p) s =
      { s with
        scene := s.scene.set sel
          (Object3D.addRotationY
            { obj with scale :=
              obj.scale.multiplyScalar (getDistance p.1 p.2 / s.lastTouchDistance) }
            ((getAngle p.1 p.2 - s.initialRotation) * 0.01))
        lastTouchDistance := getDistance p.1 p.2
        initialRotation := getAngle p.1 p.2 } := by
  simp only [touchmove, hactive, twoTouches]
  rw [modify_eq_set_of_getElem? _ _ _ _ hobj]

/-- A `touchstart` with two contacts, on an active object, records their distance
and angle. -/
theorem touchstart_two (s : State α) (sel : Nat) (p : Touch α × Touch α)
    (hactive : s.selectedModel = some sel) :
    touchstart (twoTouches p) s =
      { s with
        lastTouchDistance := getDistance p.1 p.2
        initialRotation := getAngle p.1 p.2 } := by
  simp only [touchstart, hactive, twoTouches]

/-- The moves of a pinch under any arithmetic: the scale is multiplied by the
step ratios one after the other, in the order of the events. -/
theorem run_moves_scale (moves : List (Touch α × Touch α)) (s : State α) (sel : Nat)
    (obj : Object3D α) (hactive : s.selectedModel = some sel)
    (hobj : s.scene[sel]? = some obj) :
    ((run (moves.map (fun p => Event.touchMove (twoTouches p))) s).scene[sel]?).map
        (fun o => o.scale)
      = some ((List.zipWith (fun a b => b / a)
          (s.lastTouchDistance :: moves.map (fun p => getDistance p.1 p.2))
          (moves.map (fun p => getDistance p.1 p.2))).foldl
          (fun v r => v.multiplyScalar r) obj.scale) := by
  induction moves generalizing s obj with
  | nil => simp [run, hobj]
  | cons p moves ih =>
    have hlt : sel < s.scene.length := by
      rcases List.getElem?_eq_some_iff.mp hobj with ⟨h, _⟩
      exact h
    have hs := touchmove_two s sel obj p hactive hobj
    have hstep : (step (Event.touchMove (twoTouches p)) s).state = touchmove (twoTouches p) s :=
      rfl
    rw [List.map_cons, run_cons, hstep]
    rw [ih (touchmove (twoTouches p) s)
      (Object3D.addRotationY
        { obj with scale :=
          obj.scale.multiplyScalar (getDistance p.1 p.2 / s.lastTouchDistance) }
        ((getAngle p.1 p.2 - s.initialRotation) * 0.01))
      (by rw [hs]; exact hactive) (by rw [hs]; simp [List.getElem?_set, hlt])]
    rw [hs]
    simp [Object3D.addRotationY]

/-- A whole pinch under any arithmetic. -/
theorem run_pinch_scale (start : Touch α × Touch α) (moves : List (Touch α × Touch α))
    (s : State α) (sel : Nat) (obj : Object3D α) (hactive : s.selectedModel = some sel)
    (hobj : s.scene[sel]? = some obj) :
    ((run (pinchEvents start moves) s).scene[sel]?).map (fun o => o.scale)
      = some ((List.zipWith (fun a b => b / a)
          (pinchDistances start moves) (pinchDistances start moves).tail).foldl
          (fun v r => v.multiplyScalar r) obj.scale) := by
  have hstep :
      (step (Event.touchStart (twoTouches start)) s).state = touchstart (twoTouches start) s :=
    rfl
  have hs := touchstart_two s sel start hactive
  rw [pinchEvents, run_cons, hstep,
    run_moves_scale moves (touchstart (twoTouches start) s) sel obj
      (by rw [hs]; exact hactive) (by rw [hs]; exact hobj), hs]
  rfl

theorem foldl_multiplyScalar_axes (l : List α) (v : Vector3 α) :
    l.foldl (fun v r => v.multiplyScalar r) v
      = { x := l.foldl (fun acc r => acc * r) v.x
          y := l.foldl (fun acc r => acc * r) v.y
          z := l.foldl (fun acc r => acc * r) v.z } := by
  induction l generalizing v with
  | nil => rfl
  | cons r l ih =>
    rw [List.foldl_cons, ih]
    rfl

/-- C5, as the code has it. A two-finger pinch on an active object, in whatever
arithmetic the numbers have (the program's doubles included): after a
`touchstart` with two contacts at distance `d0` and `touchmove`s with two contacts
at distances `d1`, ..., `dn`, the scale of the active object is on every axis
its scale before multiplied by the step ratios `dk / d(k-1)` one after the
other in the order of the events; in doubles, for the distances 100, 150, 120
the step ratios are 1.5 and then 0.8. -/
theorem two_finger_pinch_multiplies (s : State α) (sel : Nat) (obj : Object3D α)
    (hactive : s.selectedModel = some sel) (hobj : s.scene[sel]? = some obj)
    (start : Touch α × Touch α) (moves : List (Touch α × Touch α)) :
    ((run (pinchEvents start moves) s).scene[sel]?).map (fun o => o.scale)
      = some
        { x := (List.zipWith (fun a b => b / a)
                  (pinchDistances start moves) (pinchDistances start moves).tail).foldl
                  (fun acc r => acc * r) obj.scale.x
          y := (List.zipWith (fun a b => b / a)
                  (pinchDistances start moves) (pinchDistances start moves).tail).foldl
                  (fun acc r => acc * r) obj.scale.y
          z := (List.zipWith (fun a b => b / a)
                  (pinchDistances start moves) (pinchDistances start moves).tail).foldl
                  (fun acc r => acc * r) obj.scale.z } ∧
    List.zipWith (fun a b => b / a) [(100 : Float64), 150, 120] [150, 120] = [1.5, 0.8] := by
  refine ⟨?_, by decide⟩
  have hstart : (step (Event.touchStart (twoTouches start)) s).state
      = { s with
          lastTouchDistance := getDistance start.1 start.2
          initialRotation := getAngle start.1 start.2 } := by
    simp only [step, Completion.state, touchstart, hactive, twoTouches]
  rw [pinchEvents, run_cons, hstart,
    run_moves_scale moves
      { s with
        lastTouchDistance := getDistance start.1 start.2
        initialRotation := getAngle start.1 start.2 } sel obj hactive hobj,
    foldl_multiplyScalar_axes]
  rfl

end Pinch

section PinchExact

variable {K : Type} [LinearOrderedField K] [JSMath K] [Three K]

theorem foldl_multiplyScalar (l : List K) (v : Vector3 K) :
    l.foldl (fun v r => v.multiplyScalar r) v
      = { x := v.x * l.prod, y := v.y * l.prod, z := v.z * l.prod } := by
  induction l generalizing v with
  | nil => simp
  | cons r l ih =>
    rw [List.foldl_cons, ih, List.prod_cons]
    simp [Vector3.multiplyScalar, mul_assoc]

theorem prod_ratios_telescope (d0 : K) (ds : List K) (hpos : ∀ d ∈ d0 :: ds, 0 < d) :
    (List.zipWith (fun a b => b / a) (d0 :: ds) ds).prod = ds.getLastD d0 / d0 := by
  induction ds generalizing d0 with
  | nil =>
    have h0 : d0 ≠ 0 := (hpos d0 (by simp)).ne'
    simp [h0]
  | cons d ds ih =>
    have h0 : d0 ≠ 0 := (hpos d0 (by simp)).ne'
    have hd : d ≠ 0 := (hpos d (by simp)).ne'
    rw [List.zipWith_cons_cons, List.prod_cons, ih d (fun x hx => hpos x (by simp_all)),
      List.getLastD_cons]
    field_simp
    ring

/-- A two-finger pinch in exact arithmetic, where no operation rounds: with all
distances positive the scale of the active object is on every axis its scale
before times the product of the step ratios `dk / d(k-1)`, a product that
comes to `dn / d0`; for the distances 100, 150, 120 the step ratios are 1.5 and
then 0.8. -/
theorem pinch_product_exact (s : State K) (sel : Nat) (obj : Object3D K)
    (hactive : s.selectedModel = some sel) (hobj : s.scene[sel]? = some obj)
    (start : Touch K × Touch K) (moves : List (Touch K × Touch K))
    (hpos : ∀ d ∈ pinchDistances start moves, 0 < d) :
    ((run (pinchEvents start moves) s).scene[sel]?).map (fun o => o.scale)
      = some
        { x := obj.scale.x * (List.zipWith (fun a b => b / a)
                (pinchDistances start moves) (pinchDistances start moves).tail).prod
          y := obj.scale.y * (List.zipWith (fun a b => b / a)
                (pinchDistances start moves) (pinchDistances start moves).tail).prod
          z := obj.scale.z * (List.zipWith (fun a b => b / a)
                (pinchDistances start moves) (pinchDistances start moves).tail).prod } ∧
    (List.zipWith (fun a b => b / a)
        (pinchDistances start moves) (pinchDistances start moves).tail).prod
      = (pinchDistances start moves).tail.getLastD (getDistance start.1 start.2)
          / getDistance start.1 start.2 ∧
    (pinchDistances start moves = [100, 150, 120] →
      List.zipWith (fun a b => b / a)
        (pinchDistances start moves) (pinchDistances start moves).tail = [1.5, 0.8]) := by
  refine ⟨?_, ?_, ?_⟩
  · rw [run_pinch_scale start moves s sel obj hactive hobj, foldl_multiplyScalar]
  · exact prod_ratios_telescope _ _ hpos
  · intro h
    rw [h]
    norm_num

end PinchExact

/-! ## One active object -/

section Active

variable {α : Type} [Add α] [Sub α] [Mul α] [Div α] [OfScientific α] [One α]
variable [JSMath α] [Three α]

/-- A successful `onSelect`. -/
theorem onSelect_of_ready (s : State α) (item : Object3D α)
    (hvisible : s.reticle.visible = true) (hloaded : s.items s.itemSelectedIndex = some item) :
    ∃ model, (onSelect s).state =
      { s with scene := s.scene ++ [model], selectedModel := some s.scene.length } := by
  unfold onSelect
  rw [hvisible, hloaded]
  exact ⟨_, rfl⟩

/-- No callback removes an object from the scene. -/
theorem step_scene_length (ev : Event α) (s : State α) :
    s.scene.length ≤ (step ev s).state.scene.length := by
  cases ev with
  | select =>
    simp only [step, onSelect]
    cases s.reticle.visible <;> cases s.items s.itemSelectedIndex <;>
      simp [Completion.state]
  | touchStart e =>
    simp only [step, Completion.state, touchstart]
    split <;> simp
  | touchMove e =>
    simp only [step, Completion.state, touchmove]
    split
    · simp
    · split <;> simp
  | animationFrame frame =>
    simp only [step, render]
    split
    · simp [Completion.state]
    · split
      · split <;> simp [Completion.state]
      · split
        · split <;> simp [Completion.state]
        · split <;> split <;> simp [Completion.state]
  | click i => simp [step, Completion.state, onClick]
  | load i model => simp [step, Completion.state, onLoad]
  | hitTestSource source => simp [step, Completion.state, onHitTestSource]
  | sessionEnd => simp [step, Completion.state, onSessionEnd]

/-- An object that is in the scene and is not the active one is left as it is by
every callback, and does not become the active one. -/
theorem step_frozen (ev : Event α) (s : State α) (a : Nat) (ha : a < s.scene.length)
    (hother : s.selectedModel ≠ some a) :
    (step ev s).state.scene[a]? = s.scene[a]? ∧ (step ev s).state.selectedModel ≠ some a := by
  cases ev with
  | select =>
    simp only [step, onSelect]
    cases s.reticle.visible <;> cases s.items s.itemSelectedIndex <;>
      simp [Completion.state, hother, List.getElem?_append_left ha, Nat.ne_of_gt ha]
  | touchStart e =>
    simp only [step, Completion.state, touchstart]
    split <;> simp [hother]
  | touchMove e =>
    simp only [step, Completion.state, touchmove]
    split
    · simp [hother]
    · rename_i sel hsel
      have hne : sel ≠ a := fun h => hother (by rw [hsel, h])
      split <;> simp [hsel, hne, List.getElem?_modify_ne]
  | animationFrame frame =>
    simp only [step, render]
    split
    · simp [Completion.state, hother]
    · split
      · split <;> simp [Completion.state, hother]
      · split
        · split <;> simp [Completion.state, hother]
        · split <;> split <;> simp [Completion.state, hother]
  | click i => simp [step, Completion.state, onClick, hother]
  | load i model => simp [step, Completion.state, onLoad, hother]
  | hitTestSource source => simp [step, Completion.state, onHitTestSource, hother]
  | sessionEnd => simp [step, Completion.state, onSessionEnd, hother]

/-- The same along a sequence of events. -/
theorem run_frozen (evs : List (Event α)) (s : State α) (a : Nat) (ha : a < s.scene.length)
    (hother : s.selectedModel ≠ some a) :
    a < (run evs s).scene.length ∧ (run evs s).scene[a]? = s.scene[a]? ∧
      (run evs s).selectedModel ≠ some a := by
  induction evs generalizing s with
  | nil => exact ⟨ha, rfl, hother⟩
  | cons ev evs ih =>
    have hstep := step_frozen ev s a ha hother
    have hlen := Nat.lt_of_lt_of_le ha (step_scene_length ev s)
    have hrest := ih (step ev s).state hlen hstep.2
    rw [run_cons]
    exact ⟨hrest.1, hrest.2.1.trans hstep.1, hrest.2.2⟩

/-- No sequence of events removes an object from the scene. -/
theorem run_scene_length (evs : List (Event α)) (s : State α) :
    s.scene.length ≤ (run evs s).scene.length := by
  induction evs generalizing s with
  | nil => exact Nat.le_refl _
  | cons ev evs ih =>
    rw [run_cons]
    exact Nat.le_trans (step_scene_length ev s) (ih _)

/-- A touch event acts on the active object alone: the scene changes at most at
the active place, the active object stays the active one, and the new active
object and the new baselines are the ones the same event produces when that
object is the only one in the scene. -/
theorem step_touch_alone (ev : Event α) (htouch : ev.isTouch = true) (s : State α) (b : Nat)
    (B : Object3D α) (hactive : s.selectedModel = some b) (hB : s.scene[b]? = some B) :
    ∃ B', (step ev s).state.selectedModel = some b ∧
      (step ev s).state.scene = s.scene.set b B' ∧
      (step ev { s with scene := [B], selectedModel := some 0 }).state
        = { (step ev s).state with scene := [B'], selectedModel := some 0 } := by
  cases ev with
  | touchStart e =>
    refine ⟨B, ?_, ?_, ?_⟩
    · simp only [step, Completion.state, touchstart, hactive]
      split <;> simp_all
    · simp only [step, Completion.state, touchstart, hactive]
      rw [set_eq_self_of_getElem? _ _ _ hB]
      split <;> simp_all
    · simp only [step, Completion.state, touchstart, hactive]
      split <;> simp_all
  | touchMove e =>
    obtain ⟨touches⟩ := e
    have hlt : b < s.scene.length := by
      rcases List.getElem?_eq_some_iff.mp hB with ⟨h, _⟩
      exact h
    match touches with
    | [] =>
      refine ⟨B, ?_, ?_, ?_⟩ <;>
        simp [step, Completion.state, touchmove, hactive, set_eq_self_of_getElem? _ _ _ hB]
    | [t0] =>
      refine ⟨{ B with position :=
        { B.position with
          x := B.position.x + (t0.clientX - s.lastTouchX) * 0.001
          z := B.position.z + (t0.clientY - s.lastTouchY) * 0.001 } }, ?_, ?_, ?_⟩
      · simp [step, Completion.state, touchmove, hactive]
      · simp only [step, Completion.state, touchmove, hactive]
        exact modify_eq_set_of_getElem? _ _ _ _ hB
      · simp [step, Completion.state, touchmove, hactive, List.modify, List.modifyTailIdx,
          List.modifyHead]
    | [t0, t1] =>
      refine ⟨Object3D.addRotationY
        { B with scale := B.scale.multiplyScalar (getDistance t0 t1 / s.lastTouchDistance) }
        ((getAngle t0 t1 - s.initialRotation) * 0.01), ?_, ?_, ?_⟩
      · simp [step, Completion.state, touchmove, hactive]
      · simp only [step, Completion.state, touchmove, hactive]
        exact modify_eq_set_of_getElem? _ _ _ _ hB
      · simp [step, Completion.state, touchmove, hactive, List.modify, List.modifyTailIdx,
          List.modifyHead]
    | _ :: _ :: _ :: _ =>
      refine ⟨B, ?_, ?_, ?_⟩ <;>
        simp [step, Completion.state, touchmove, hactive, set_eq_self_of_getElem? _ _ _ hB]
  | select => simp [Event.isTouch] at htouch
  | click i => simp [Event.isTouch] at htouch
  | animationFrame frame => simp [Event.isTouch] at htouch
  | load i model => simp [Event.isTouch] at htouch
  | hitTestSource source => simp [Event.isTouch] at htouch
  | sessionEnd => simp [Event.isTouch] at htouch

/-- The same along a sequence of touch events. -/
theorem run_touch_alone (evs : List (Event α)) (htouch : ∀ ev ∈ evs, ev.isTouch = true)
    (s : State α) (b : Nat) (B : Object3D α) (hactive : s.selectedModel = some b)
    (hB : s.scene[b]? = some B) :
    ∃ B', (run evs s).selectedModel = some b ∧
      (run evs s).scene = s.scene.set b B' ∧
      run evs { s with scene := [B], selectedModel := some 0 }
        = { run evs s with scene := [B'], selectedModel := some 0 } := by
  induction evs generalizing s B with
  | nil => exact ⟨B, hactive, (set_eq_self_of_getElem? _ _ _ hB).symm, rfl⟩
  | cons ev evs ih =>
    have hlt : b < s.scene.length := by
      rcases List.getElem?_eq_some_iff.mp hB with ⟨h, _⟩
      exact h
    obtain ⟨B₁, hsel₁, hscene₁, halone₁⟩ :=
      step_touch_alone ev (htouch ev (by simp)) s b B hactive hB
    have hB₁ : (step ev s).state.scene[b]? = some B₁ := by
      rw [hscene₁]
      simp [List.getElem?_set, hlt]
    obtain ⟨B₂, hsel₂, hscene₂, halone₂⟩ :=
      ih (fun e he => htouch e (by simp [he])) (step ev s).state B₁ hsel₁ hB₁
    refine ⟨B₂, ?_, ?_, ?_⟩
    · rw [run_cons]
      exact hsel₂
    · rw [run_cons, hscene₂, hscene₁, List.set_set]
    · rw [run_cons, run_cons, halone₁]
      exact halone₂

/-- A `touchmove` with one contact, read at the active place of the scene. -/
theorem touchmove_one_active (s : State α) (sel : Nat) (obj : Object3D α) (t0 : Touch α)
    (hactive : s.selectedModel = some sel) (hobj : s.scene[sel]? = some obj) :
    (touchmove { touches := [t0] } s).scene[sel]? = some
      { obj with position :=
        { x := obj.position.x + (t0.clientX - s.lastTouchX) * 0.001
          y := obj.position.y
          z := obj.position.z + (t0.clientY - s.lastTouchY) * 0.001 } } := by
  have hlt : sel < s.scene.length := by
    rcases List.getElem?_eq_some_iff.mp hobj with ⟨h, _⟩
    exact h
  have h := touchmove_one s sel obj (t0.clientX, t0.clientY) hactive hobj
  simp only [oneTouch] at h
  rw [h]
  simp [List.getElem?_set, hlt]

/-- A `touchmove` with two contacts, read at the active place of the scene. -/
theorem touchmove_two_active (s : State α) (sel : Nat) (obj : Object3D α) (t0 t1 : Touch α)
    (hactive : s.selectedModel = some sel) (hobj : s.scene[sel]? = some obj) :
    (touchmove { touches := [t0, t1] } s).scene[sel]? = some
      (Object3D.addRotationY
        { obj with scale := obj.scale.multiplyScalar (getDistance t0 t1 / s.lastTouchDistance) }
        ((getAngle t0 t1 - s.initialRotation) * 0.01)) := by
  have hlt : sel < s.scene.length := by
    rcases List.getElem?_eq_some_iff.mp hobj with ⟨h, _⟩
    exact h
  have h := touchmove_two s sel obj (t0, t1) hactive hobj
  simp only [twoTouches] at h
  rw [h]
  simp [List.getElem?_set, hlt]

/-- C6. Let `onSelect` place an object A (in state `s`, reticle visible, model
loaded), let any events follow, and let `onSelect` then place an object B (in
state `t`, reticle visible, model loaded), giving state `u`.  Then A and B are
both in the scene of `u`, at different places, and `selectedModel` is B.  After
every further sequence of `touchstart` and `touchmove` events A is exactly as it
was when B was placed, and so is every object other than B; `selectedModel` is
still B; B is what the same events make of it when it is the only object in
the scene; and the next gesture lands on B: a `touchmove` with one contact adds
`(x - lastTouchX) * 0.001` to the `x` of B and `(y - lastTouchY) * 0.001` to its
`z`, a `touchmove` with two contacts multiplies the scale of B by
`distance / lastTouchDistance` and adds `(angle - initialRotation) * 0.01` to its
`rotation.y`. -/
theorem second_placement_retargets_gestures (s t u : State α) (itemA itemB : Object3D α)
    (between : List (Event α))
    (hvisibleA : s.reticle.visible = true)
    (hloadedA : s.items s.itemSelectedIndex = some itemA)
    (ht : t = run between (onSelect s).state)
    (hvisibleB : t.reticle.visible = true)
    (hloadedB : t.items t.itemSelectedIndex = some itemB)
    (hu : u = (onSelect t).state) :
    ∃ A B : Object3D α,
      (onSelect s).state.scene.length = s.scene.length + 1 ∧
      (onSelect s).state.selectedModel = some s.scene.length ∧
      s.scene.length < t.scene.length ∧
      t.scene[s.scene.length]? = some A ∧
      u.scene.length = t.scene.length + 1 ∧
      u.scene[s.scene.length]? = some A ∧
      u.scene[t.scene.length]? = some B ∧
      u.selectedModel = some t.scene.length ∧
      ∀ later : List (Event α), (∀ ev ∈ later, ev.isTouch = true) →
        (run later u).scene[s.scene.length]? = some A ∧
        (run later u).selectedModel = some t.scene.length ∧
        (∀ j, j ≠ t.scene.length → (run later u).scene[j]? = u.scene[j]?) ∧
        (run later u).scene[t.scene.length]?
          = (run later { u with scene := [B], selectedModel := some 0 }).scene[0]? ∧
        ∃ Bnow : Object3D α,
          (run later u).scene[t.scene.length]? = some Bnow ∧
          (∀ t0 : Touch α,
            (touchmove { touches := [t0] } (run later u)).scene[s.scene.length]? = some A ∧
            (touchmove { touches := [t0] } (run later u)).scene[t.scene.length]? = some
              { gltfScene := Bnow.gltfScene
                position :=
                  { x := Bnow.position.x + (t0.clientX - (run later u).lastTouchX) * 0.001
                    y := Bnow.position.y
                    z := Bnow.position.z + (t0.clientY - (run later u).lastTouchY) * 0.001 }
                quaternion := Bnow.quaternion
                rotation := Bnow.rotation
                scale := Bnow.scale }) ∧
          (∀ t0 t1 : Touch α,
            (touchmove { touches := [t0, t1] } (run later u)).scene[s.scene.length]?
              = some A ∧
            (touchmove { touches := [t0, t1] } (run later u)).scene[t.scene.length]? = some
              { gltfScene := Bnow.gltfScene
                position := Bnow.position
                quaternion := Three.quaternionFromEuler
                  { x := Bnow.rotation.x
                    y := Bnow.rotation.y
                      + (getAngle t0 t1 - (run later u).initialRotation) * 0.01
                    z := Bnow.rotation.z }
                rotation :=
                  { x := Bnow.rotation.x
                    y := Bnow.rotation.y
                      + (getAngle t0 t1 - (run later u).initialRotation) * 0.01
                    z := Bnow.rotation.z }
                scale :=
                  { x := Bnow.scale.x * (getDistance t0 t1 / (run later u).lastTouchDistance)
                    y := Bnow.scale.y * (getDistance t0 t1 / (run later u).lastTouchDistance)
                    z := Bnow.scale.z
                      * (getDistance t0 t1 / (run later u).lastTouchDistance) } }) := by
  obtain ⟨modelA, hplacedA⟩ := onSelect_of_ready s itemA hvisibleA hloadedA
  obtain ⟨modelB, hplacedB⟩ := onSelect_of_ready t itemB hvisibleB hloadedB
  have hlenA : (onSelect s).state.scene.length = s.scene.length + 1 := by
    rw [hplacedA]
    simp
  have hab : s.scene.length < t.scene.length := by
    have hle := run_scene_length between (onSelect s).state
    rw [← ht, hlenA] at hle
    exact hle
  have huscene : u.scene = t.scene ++ [modelB] := by rw [hu, hplacedB]
  have husel : u.selectedModel = some t.scene.length := by rw [hu, hplacedB]
  have hA : u.scene[s.scene.length]? = some (t.scene.get ⟨s.scene.length, hab⟩) := by
    rw [huscene, List.getElem?_append_left hab]
    exact List.getElem?_eq_getElem hab
  have hB : u.scene[t.scene.length]? = some modelB := by
    rw [huscene]
    simp
  refine ⟨t.scene.get ⟨s.scene.length, hab⟩, modelB, hlenA, ?_, hab,
    List.getElem?_eq_getElem hab, ?_, hA, hB, husel, ?_⟩
  · rw [hplacedA]
  · rw [huscene]
    simp
  · intro later htouch
    obtain ⟨B', hsel, hscene, halone⟩ :=
      run_touch_alone later htouch u t.scene.length modelB husel hB
    have hblt : t.scene.length < u.scene.length := by
      rw [huscene]
      simp
    have hAnow : (run later u).scene[s.scene.length]? = some (t.scene.get ⟨s.scene.length, hab⟩) := by
      rw [hscene, List.getElem?_set_ne (Nat.ne_of_gt hab), hA]
    have hBnow : (run later u).scene[t.scene.length]? = some B' := by
      rw [hscene]
      simp [List.getElem?_set, hblt]
    have halt : s.scene.length < (run later u).scene.length := by
      rw [hscene, List.length_set]
      exact Nat.lt_trans hab hblt
    have hother : (run later u).selectedModel ≠ some s.scene.length := by
      rw [hsel]
      intro h
      exact Nat.ne_of_gt hab (Option.some.inj h)
    refine ⟨hAnow, hsel, ?_, ?_, B', hBnow, fun t0 => ⟨?_, ?_⟩, fun t0 t1 => ⟨?_, ?_⟩⟩
    · intro j hj
      rw [hscene, List.getElem?_set_ne (Ne.symm hj)]
    · rw [halone, hBnow]
      simp
    · have h := (step_frozen (Event.touchMove { touches := [t0] }) (run later u)
        s.scene.length halt hother).1
      exact h.trans hAnow
    · exact touchmove_one_active (run later u) t.scene.length B' t0 hsel hBnow
    · have h := (step_frozen (Event.touchMove { touches := [t0, t1] }) (run later u)
        s.scene.length halt hother).1
      exact h.trans hAnow
    · exact touchmove_two_active (run later u) t.scene.length B' t0 t1 hsel hBnow

end Active

/-! ## Menu selection -/

section Menu

variable {α : Type}

theorem foldl_update_apply {β : Type} (f : β → β) (l : List (Fin 10)) (hl : l.Nodup)
    (m : Fin 10 → β) (j : Fin 10) :
    (l.foldl (fun m j => Function.update m j (f (m j))) m) j
      = if j ∈ l then f (m j) else m j := by
  induction l generalizing m with
  | nil => simp
  | cons a l ih =>
    rw [List.nodup_cons] at hl
    rw [List.foldl_cons, ih hl.2]
    by_cases hj : j ∈ l
    · have hne : j ≠ a := fun h => hl.1 (h ▸ hj)
      simp [hj, hne]
    · by_cases hja : j = a
      · subst hja
        simp [hj]
      · simp [hj, hja]

theorem not_mem_classListRemove (classList : List String) (token : String) :
    token ∉ classListRemove classList token := by
  simp [classListRemove]

theorem mem_classListAdd (classList : List String) (token : String) :
    token ∈ classListAdd classList token := by
  unfold classListAdd
  split <;> simp_all

/-- C10. After the click listener of entry `i`, from any state: the selected index
is `i`, and a menu entry carries the class `clicked` exactly when it is entry `i`. -/
theorem onClick_exclusive (s : State α) (i : Fin 10) :
    (onClick i s).itemSelectedIndex = i ∧
    ∀ j : Fin 10, "clicked" ∈ (onClick i s).menu j ↔ j = i := by
  refine ⟨rfl, fun j => ?_⟩
  simp only [onClick]
  by_cases hj : j = i
  · subst hj
    simp [mem_classListAdd]
  · simp only [Function.update_noteq hj, hj, iff_false]
    have hfold := foldl_update_apply (fun c => classListRemove c "clicked")
      (List.finRange 10) (List.nodup_finRange 10) s.menu j
    simp only [List.mem_finRange, if_true] at hfold
    rw [hfold]
    exact not_mem_classListRemove _ _

end Menu

end ARRoom

namespace ARRoom

/-! ## Concrete runs -/

set_option maxRecDepth 100000

/-- C1 at a concrete session: the third menu entry clicked, its model loaded, the
reticle on a surface at `(1, 0, -2)`. -/
theorem onSelect_places_selected_model_at_ready :
    readyState.itemSelectedIndex = 2 ∧ readyState.items 2 = some tableModel ∧
    readyState.reticle.visible = true ∧
    (onSelect readyState).threw = false ∧
    (onSelect readyState).state.scene =
      [{ gltfScene := "./marble_coffee_table.glb"
         position := ⟨1, 0, -2⟩, quaternion := ⟨0, 0, 0, 1⟩, rotation := ⟨0, 0, 0⟩
         scale := ⟨0.005, 0.005, 0.005⟩ }] ∧
    (onSelect readyState).state.selectedModel = some 0 := by
  have h := onSelect_places_selected_model readyState tableModel rfl rfl rfl
  refine ⟨rfl, rfl, rfl, ?_, ?_, ?_⟩ <;> rw [h] <;> rfl

/-- C2 at startup, where the reticle is hidden. -/
theorem onSelect_hidden_reticle_at_start :
    startState.reticle.visible = false ∧ onSelect startState = .normal startState :=
  ⟨rfl, onSelect_hidden_reticle startState rfl⟩

/-- C3 at a concrete session: the reticle is on a surface and no model has
loaded yet. -/
theorem onSelect_unloaded_throws_at_tracking :
    trackingState.reticle.visible = true ∧
    trackingState.items trackingState.itemSelectedIndex = none ∧
    onSelect trackingState = .throw .TypeError trackingState :=
  ⟨rfl, rfl, onSelect_unloaded_throws trackingState rfl rfl⟩

/-- C7 at startup, where nothing has been placed. -/
theorem touch_without_active_object_at_start :
    startState.selectedModel = none ∧
    touchstart (oneTouch (10, 20)) startState = startState ∧
    touchmove (oneTouch (10, 20)) startState = startState :=
  ⟨rfl, touch_without_active_object startState (oneTouch (10, 20)) rfl⟩

/-- C8, as the code has it, at a concrete session, once for a frame with a hit
and once for a frame without. -/
theorem render_tracks_first_hit_at_tracking :
    trackingState.hitTestSource = some ⟨1⟩ ∧
    ((render (some hitFrame) trackingState).threw = false ∧
      (render (some hitFrame) trackingState).state.reticle.visible = true ∧
      (render (some hitFrame) trackingState).state.reticle.matrix
        = ⟨translationMatrix 1 0 (-2)⟩) ∧
    (render (some emptyFrame) trackingState).state.reticle.visible = false ∧
    (render (some emptyFrame) trackingState).state.reticle.matrix = trackingState.reticle.matrix :=
  ⟨rfl,
    (render_tracks_first_hit trackingState hitFrame ⟨1⟩ rfl).1 _ _ _ rfl rfl,
    ((render_tracks_first_hit trackingState emptyFrame ⟨1⟩ rfl).2 rfl).2⟩

/-- C8 as stated fails. The hit-test source exists and the reticle is hidden; a
frame arrives whose list of results is not empty and whose first result has no
pose. `render` marks the reticle visible and then throws a `TypeError`: the
reticle matrix is not the pose of the first result, it is the matrix from
before the frame, and a `select` then places a model. -/
theorem render_poseless_hit_throws :
    sourceReadyState.hitTestSource = some ⟨1⟩ ∧
    sourceReadyState.reticle.visible = false ∧
    (poselessFrame.getHitTestResults ⟨1⟩).length = 1 ∧
    (render (some poselessFrame) sourceReadyState).threw = true ∧
    (render (some poselessFrame) sourceReadyState).state.reticle.visible = true ∧
    (render (some poselessFrame) sourceReadyState).state.reticle.matrix
      = sourceReadyState.reticle.matrix ∧
    (run [.load 0 tableModel, .animationFrame (some poselessFrame), .select]
        sourceReadyState).scene.length = 1 :=
  ⟨rfl, rfl, rfl, rfl, rfl, rfl, rfl⟩

/-- C9, as the code has it, at startup: no source yet, the reticle hidden. -/
theorem render_without_source_at_start :
    startState.hitTestSource = none ∧
    render (some hitFrame) startState
      = .normal { startState with hitTestSourceRequested := true } :=
  ⟨rfl, render_without_source startState hitFrame rfl⟩

/-- The exact closed form of a drag on a placed model at `(1, 0, -2)`: from
`(100, 200)` over `(150, 260)` to `(130, 300)` it moves by `0.001 * (30, 0, 100)`. -/
theorem drag_closed_form_exact_at_placed :
    placedState.selectedModel = some 0 ∧
    (run (dragEvents (100, 200) [(150, 260), (130, 300)]) placedState).scene.map
        (fun o => o.position)
      = [⟨103 / 100, 0, -19 / 10⟩] := by
  have h := (drag_closed_form_exact placedState 0
    { gltfScene := "./marble_coffee_table.glb"
      position := ⟨1, 0, -2⟩, quaternion := ⟨0, 0, 0, 1⟩, rotation := ⟨0, 0, 0⟩
      scale := ⟨0.005, 0.005, 0.005⟩ }
    rfl rfl (100, 200) [(150, 260), (130, 300)]).1
  have hscene : placedState.scene =
      [{ gltfScene := "./marble_coffee_table.glb"
         position := ⟨1, 0, -2⟩, quaternion := ⟨0, 0, 0, 1⟩, rotation := ⟨0, 0, 0⟩
         scale := ⟨0.005, 0.005, 0.005⟩ }] := rfl
  refine ⟨rfl, ?_⟩
  rw [h, hscene]
  norm_num

/-- The exact product form of a pinch on a placed model of scale `0.005`: over the
distances 100, 150, 120 it leaves the scale `0.005 * 1.5 * 0.8 = 0.006`. -/
theorem pinch_product_exact_at_placed :
    placedState.selectedModel = some 0 ∧
    pinchDistances (⟨0, 0⟩, ⟨100, 0⟩) [(⟨0, 0⟩, ⟨150, 0⟩), (⟨0, 0⟩, ⟨120, 0⟩)]
      = [(100 : ℚ), 150, 120] ∧
    ((run (pinchEvents (⟨0, 0⟩, ⟨100, 0⟩) [(⟨0, 0⟩, ⟨150, 0⟩), (⟨0, 0⟩, ⟨120, 0⟩)])
        placedState).scene[0]?).map (fun o => o.scale)
      = some ⟨3 / 500, 3 / 500, 3 / 500⟩ := by
  have h := (pinch_product_exact placedState 0
    { gltfScene := "./marble_coffee_table.glb"
      position := ⟨1, 0, -2⟩, quaternion := ⟨0, 0, 0, 1⟩, rotation := ⟨0, 0, 0⟩
      scale := ⟨0.005, 0.005, 0.005⟩ }
    rfl rfl (⟨0, 0⟩, ⟨100, 0⟩) [(⟨0, 0⟩, ⟨150, 0⟩), (⟨0, 0⟩, ⟨120, 0⟩)]
    (by norm_num [pinchDistances, getDistance, JSMath.hypot])).1
  refine ⟨rfl, by norm_num [pinchDistances, getDistance, JSMath.hypot], ?_⟩
  rw [h]
  norm_num [pinchDistances, getDistance, JSMath.hypot]

/-- C4, as the code has it, in doubles, on a placed model at `(1, 0, -2)`: a drag
from `(100, 200)` over `(150, 260)` to `(130, 300)` takes `x` from `1` over
`1.05` to `1.03` and `z` from `-2` over `-1.94` to `-1.9`. -/
theorem single_finger_drag_accumulates_at_placed :
    placedDouble.selectedModel = some 0 ∧
    placedDouble.scene.map (fun o => o.position) = [⟨1, 0, -2⟩] ∧
    (run (dragEvents (100, 200) [(150, 260)]) placedDouble).scene.map (fun o => o.position)
      = [⟨1.05, 0, -1.94⟩] ∧
    (run (dragEvents (100, 200) [(150, 260), (130, 300)]) placedDouble).scene.map
        (fun o => o.position)
      = [⟨1.03, 0, -1.9⟩] := by
  have h₁ := single_finger_drag_accumulates placedDouble 0
    { gltfScene := "./marble_coffee_table.glb"
      position := ⟨1, 0, -2⟩, quaternion := ⟨0, 0, 0, 1⟩, rotation := ⟨0, 0, 0⟩
      scale := ⟨0.005, 0.005, 0.005⟩ }
    (by decide) (by decide) (100, 200) [(150, 260)]
  have h₂ := single_finger_drag_accumulates placedDouble 0
    { gltfScene := "./marble_coffee_table.glb"
      position := ⟨1, 0, -2⟩, quaternion := ⟨0, 0, 0, 1⟩, rotation := ⟨0, 0, 0⟩
      scale := ⟨0.005, 0.005, 0.005⟩ }
    (by decide) (by decide) (100, 200) [(150, 260), (130, 300)]
  refine ⟨by decide, by decide, ?_, ?_⟩
  · rw [h₁]
    decide
  · rw [h₂]
    decide

/-- C4 as stated fails in the arithmetic of the program. On a placed model at
`(1, 0, -2)` the drag from `(0, 0)` over `(1, 1)` to `(2, 2)` ends at
`(1.0019999999999998, 0, -1.9980000000000002)`; the initial position plus the
sum of the two deltas, and the closed form `initial + 0.001 * (xn - x0, 0, yn - y0)`,
are both `(1.002, 0, -1.998)`. -/
theorem drag_closed_form_fails_in_doubles :
    placedDouble.selectedModel = some 0 ∧
    placedDouble.scene.map (fun o => o.position) = [⟨1, 0, -2⟩] ∧
    (run (dragEvents (0, 0) [(1, 1), (2, 2)]) placedDouble).scene.map (fun o => o.position)
      = [⟨1.0019999999999998, 0, -1.9980000000000002⟩] ∧
    ((⟨1 + (0.001 * (1 - 0) + 0.001 * (2 - 1)), 0,
        -2 + (0.001 * (1 - 0) + 0.001 * (2 - 1))⟩ : Vector3 Float64) = ⟨1.002, 0, -1.998⟩) ∧
    ((⟨1 + 0.001 * (2 - 0), 0, -2 + 0.001 * (2 - 0)⟩ : Vector3 Float64)
      = ⟨1.002, 0, -1.998⟩) ∧
    (run (dragEvents (0, 0) [(1, 1), (2, 2)]) placedDouble).scene.map (fun o => o.position)
      ≠ [⟨1 + (0.001 * (1 - 0) + 0.001 * (2 - 1)), 0,
          -2 + (0.001 * (1 - 0) + 0.001 * (2 - 1))⟩] ∧
    (run (dragEvents (0, 0) [(1, 1), (2, 2)]) placedDouble).scene.map (fun o => o.position)
      ≠ [⟨1 + 0.001 * (2 - 0), 0, -2 + 0.001 * (2 - 0)⟩] := by
  decide

/-- C5, as the code has it, in doubles, on a placed model of scale `0.005`: a pinch
over the distances 100, 150, 120 multiplies the scale by 1.5 and then by 0.8 and
leaves it `0.006`. -/
theorem two_finger_pinch_multiplies_at_placed :
    placedDouble.selectedModel = some 0 ∧
    placedDouble.scene.map (fun o => o.scale) = [⟨0.005, 0.005, 0.005⟩] ∧
    pinchDistances (⟨0, 0⟩, ⟨100, 0⟩) [(⟨0, 0⟩, ⟨150, 0⟩), (⟨0, 0⟩, ⟨120, 0⟩)]
      = [(100 : Float64), 150, 120] ∧
    ((run (pinchEvents (⟨0, 0⟩, ⟨100, 0⟩) [(⟨0, 0⟩, ⟨150, 0⟩)])
        placedDouble).scene[0]?).map (fun o => o.scale)
      = some ⟨0.0075, 0.0075, 0.0075⟩ ∧
    ((run (pinchEvents (⟨0, 0⟩, ⟨100, 0⟩) [(⟨0, 0⟩, ⟨150, 0⟩), (⟨0, 0⟩, ⟨120, 0⟩)])
        placedDouble).scene[0]?).map (fun o => o.scale)
      = some ⟨0.006, 0.006, 0.006⟩ := by
  have h₁ := (two_finger_pinch_multiplies placedDouble 0
    { gltfScene := "./marble_coffee_table.glb"
      position := ⟨1, 0, -2⟩, quaternion := ⟨0, 0, 0, 1⟩, rotation := ⟨0, 0, 0⟩
      scale := ⟨0.005, 0.005, 0.005⟩ }
    (by decide) (by decide) (⟨0, 0⟩, ⟨100, 0⟩) [(⟨0, 0⟩, ⟨150, 0⟩)]).1
  have h₂ := (two_finger_pinch_multiplies placedDouble 0
    { gltfScene := "./marble_coffee_table.glb"
      position := ⟨1, 0, -2⟩, quaternion := ⟨0, 0, 0, 1⟩, rotation := ⟨0, 0, 0⟩
      scale := ⟨0.005, 0.005, 0.005⟩ }
    (by decide) (by decide) (⟨0, 0⟩, ⟨100, 0⟩) [(⟨0, 0⟩, ⟨150, 0⟩), (⟨0, 0⟩, ⟨120, 0⟩)]).1
  refine ⟨by decide, by decide, by decide, ?_, ?_⟩
  · rw [h₁]
    decide
  · rw [h₂]
    decide

/-- C5 as stated fails in the arithmetic of the program. On a placed model of
scale `0.005` the pinch over the distances 100, 101, 102 leaves the scale
`0.0050999999999999995` on every axis; the scale before times the product of the
two step ratios is `0.0051`. -/
theorem pinch_product_fails_in_doubles :
    placedDouble.selectedModel = some 0 ∧
    placedDouble.scene.map (fun o => o.scale) = [⟨0.005, 0.005, 0.005⟩] ∧
    pinchDistances (⟨0, 0⟩, ⟨100, 0⟩) [(⟨0, 0⟩, ⟨101, 0⟩), (⟨0, 0⟩, ⟨102, 0⟩)]
      = [(100 : Float64), 101, 102] ∧
    ((run (pinchEvents (⟨0, 0⟩, ⟨100, 0⟩) [(⟨0, 0⟩, ⟨101, 0⟩), (⟨0, 0⟩, ⟨102, 0⟩)])
        placedDouble).scene[0]?).map (fun o => o.scale)
      = some ⟨0.0050999999999999995, 0.0050999999999999995, 0.0050999999999999995⟩ ∧
    (0.005 : Float64) * (101 / 100 * (102 / 101)) = 0.0051 ∧
    ((run (pinchEvents (⟨0, 0⟩, ⟨100, 0⟩) [(⟨0, 0⟩, ⟨101, 0⟩), (⟨0, 0⟩, ⟨102, 0⟩)])
        placedDouble).scene[0]?).map (fun o => o.scale)
      ≠ some ⟨0.005 * (101 / 100 * (102 / 101)), 0.005 * (101 / 100 * (102 / 101)),
          0.005 * (101 / 100 * (102 / 101))⟩ := by
  decide

/-- C6 at a concrete session: two placements in a row at `(1, 0, -2)`, then a
drag from `(100, 200)` to `(150, 260)`. The first model stays where it was, the
second, which is the active one, moves to `(1.05, 0, -1.94)`. -/
theorem second_placement_retargets_gestures_at_ready :
    readyState.reticle.visible = true ∧
    (onSelect placedState).state.scene.length = 2 ∧
    (run (dragEvents (100, 200) [(150, 260)]) (onSelect placedState).state).scene[0]?
      = placedState.scene[0]? ∧
    ((run (dragEvents (100, 200) [(150, 260)]) (onSelect placedState).state).scene[0]?).map
        (fun o => o.position)
      = some ⟨1, 0, -2⟩ ∧
    ((run (dragEvents (100, 200) [(150, 260)]) (onSelect placedState).state).scene[1]?).map
        (fun o => o.position)
      = some ⟨21 / 20, 0, -97 / 50⟩ ∧
    (run (dragEvents (100, 200) [(150, 260)]) (onSelect placedState).state).selectedModel
      = some 1 := by
  obtain ⟨A, B, _, _, _, hplaced, _, _, _, _, hlater⟩ :=
    second_placement_retargets_gestures readyState placedState (onSelect placedState).state
      tableModel tableModel [] rfl rfl rfl rfl rfl rfl
  have hdrag := hlater (dragEvents (100, 200) [(150, 260)]) (by decide)
  obtain ⟨_, _, _, _, Bnow, hBnow, hone, _⟩ :=
    hlater [Event.touchStart (oneTouch (100, 200))] (by decide)
  have hBstart : (run [Event.touchStart (oneTouch (100, 200))]
      (onSelect placedState).state).scene[placedState.scene.length]? = some
        { gltfScene := "./marble_coffee_table.glb"
          position := ⟨1, 0, -2⟩, quaternion := ⟨0, 0, 0, 1⟩, rotation := ⟨0, 0, 0⟩
          scale := ⟨0.005, 0.005, 0.005⟩ } := rfl
  have hB := Option.some.inj (hBnow.symm.trans hBstart)
  subst hB
  have hmove : (touchmove { touches := [(⟨150, 260⟩ : Touch ℚ)] }
      (run [Event.touchStart (oneTouch (100, 200))] (onSelect placedState).state)).scene[1]?
      = some
        { gltfScene := "./marble_coffee_table.glb"
          position := ⟨1 + (150 - 100) * 0.001, 0, -2 + (260 - 200) * 0.001⟩
          quaternion := ⟨0, 0, 0, 1⟩, rotation := ⟨0, 0, 0⟩
          scale := ⟨0.005, 0.005, 0.005⟩ } := (hone ⟨150, 260⟩).2
  have hAfrozen :
      (run (dragEvents (100, 200) [(150, 260)]) (onSelect placedState).state).scene[0]?
        = placedState.scene[0]? := hdrag.1.trans hplaced.symm
  have hAvalue : placedState.scene[0]? = some
      { gltfScene := "./marble_coffee_table.glb"
        position := ⟨1, 0, -2⟩, quaternion := ⟨0, 0, 0, 1⟩, rotation := ⟨0, 0, 0⟩
        scale := ⟨0.005, 0.005, 0.005⟩ } := rfl
  have hrun : run (dragEvents (100, 200) [(150, 260)]) (onSelect placedState).state
      = touchmove { touches := [(⟨150, 260⟩ : Touch ℚ)] }
          (run [Event.touchStart (oneTouch (100, 200))] (onSelect placedState).state) := rfl
  refine ⟨rfl, rfl, hAfrozen, ?_, ?_, hdrag.2.1⟩
  · rw [hAfrozen, hAvalue]
    rfl
  · rw [hrun, hmove]
    norm_num

/-- C9 as stated fails. After a session in which a surface was found has ended,
no hit-test source exists and the reticle is still marked visible; a frame of
the next session, rendered before the new source has arrived, leaves it visible,
and a `select` then places a model. -/
theorem render_without_source_stays_visible :
    endedState.hitTestSource = none ∧
    (render (some emptyFrame) endedState).threw = false ∧
    (render (some emptyFrame) endedState).state.reticle.visible = true ∧
    (run [.load 0 tableModel, .animationFrame (some emptyFrame), .select] endedState).scene.length
      = 1 := by
  decide

end ARRoom
